import Mathlib

/-!
# Prosograph validator: a shallow embedding of `tools/validator.py`

The validator reads a deserialized document tree (maps with optional keys,
sequences, strings, numbers) and runs six semantic passes plus a profile
detector.  The embedding below represents each logical entity as a structure
of `Option` fields (a missing dictionary key is `none`), Python floats as
rationals `ℚ`, and every `add_error` / `add_warning` call site as a dedicated
constructor of a structured finding type carrying exactly the values the
source interpolates into its message string.  Python `dict.get(k, default)`
becomes `Option.getD`; loops become structural recursion or folds.
-/

namespace Prosograph

/-- `vad` sub-object of an emotion track (`validator.py` `check_emotion`). -/
structure Vad where
  valence : Option ℚ := none
  arousal : Option ℚ := none
  dominance : Option ℚ := none
deriving DecidableEq

/-- Emotion track: optional `vad` object and optional `confidence`. -/
structure Emotion where
  vad : Option Vad := none
  confidence : Option ℚ := none
deriving DecidableEq

/-- Voice-quality track: the five optional scalar fields the source checks. -/
structure VoiceQuality where
  creak : Option ℚ := none
  breathiness : Option ℚ := none
  nasal : Option ℚ := none
  tension : Option ℚ := none
  smile : Option ℚ := none
deriving DecidableEq

/-- Tone track: `system` (segment level), `lexical` and `confidence`
(token level).  Only presence of `system`/`lexical` matters to the source. -/
structure Tone where
  system : Option String := none
  lexical : Option String := none
  confidence : Option ℚ := none
deriving DecidableEq

/-- The value found under an emphasis entry's `span` key: the source tests
`isinstance(span, dict) and 'token_ids' in span`, so the embedding only
distinguishes a non-dict value from a dict with or without `token_ids`. -/
inductive SpanVal where
  | nonObject
  | obj (token_ids : Option (List String))
deriving DecidableEq

/-- One entry of a `delivery.emphasis` sequence. -/
structure Emphasis where
  span : Option SpanVal := none
deriving DecidableEq

/-- Delivery track: optional `clarity` plus the `emphasis` sequence
(`delivery.get('emphasis', [])` makes an absent sequence the empty one). -/
structure Delivery where
  clarity : Option ℚ := none
  emphasis : List Emphasis := []
deriving DecidableEq

/-- A `tracks` map; the source only ever reads these five keys.  For
`prosody` only presence is inspected, so it is embedded as `Option Unit`. -/
structure Tracks where
  emotion : Option Emotion := none
  prosody : Option Unit := none
  delivery : Option Delivery := none
  voice_quality : Option VoiceQuality := none
  tone : Option Tone := none
deriving DecidableEq

/-- A token.  `tok.get('tracks', {})` makes an absent tracks map empty, so
`tracks` is embedded directly with all-absent fields as default. -/
structure Token where
  id : Option String := none
  t0 : Option ℚ := none
  t1 : Option ℚ := none
  kind : Option String := none
  tracks : Tracks := {}
deriving DecidableEq

/-- A segment. -/
structure Segment where
  id : Option String := none
  t0 : Option ℚ := none
  t1 : Option ℚ := none
  language : Option String := none
  tracks : Tracks := {}
  tokens : List Token := []
deriving DecidableEq

/-- The `audio` object. -/
structure Audio where
  uri : Option String := none
  duration_s : Option ℚ := none
deriving DecidableEq

/-- `defaults.style`. -/
structure Style where
  emotion : Option Emotion := none
  voice_quality : Option VoiceQuality := none
deriving DecidableEq

/-- The `defaults` object. -/
structure Defaults where
  language : Option String := none
  style : Option Style := none
deriving DecidableEq

/-- The `meta` object (only `profile` is read). -/
structure MetaInfo where
  profile : Option String := none
deriving DecidableEq

/-- A whole document.  The version string lives under the `prosograph` key. -/
structure Doc where
  prosograph : Option String := none
  audio : Option Audio := none
  segments : Option (List Segment) := none
  defaults : Option Defaults := none
  meta : Option MetaInfo := none
deriving DecidableEq

/-- One constructor per `add_error` call site of the source, carrying the
values the source interpolates into the message. -/
inductive Err where
  | missingProsograph
  | unsupportedVersion (v : String)
  | missingAudio
  | missingAudioUri
  | missingAudioDuration
  | audioDurationNotPositive
  | missingSegments
  | segMissingT0 (segId : String)
  | segMissingT1 (segId : String)
  | segT0Negative (segId : String) (t0 : ℚ)
  | segT1NotAfterT0 (segId : String) (t1 t0 : ℚ)
  | segT1ExceedsDuration (segId : String) (t1 dur : ℚ)
  | tokMissingT (tokId : String)
  | tokT0BeforeSegT0 (tokId : String) (t0 segT0 : ℚ)
  | tokT1AfterSegT1 (tokId : String) (t1 segT1 : ℚ)
  | tokT1NotAfterT0 (tokId : String) (t1 t0 : ℚ)
  | duplicateSegmentId (id : String)
  | segmentMissingId
  | duplicateTokenId (id : String)
  | tokenMissingId
  | danglingTokenRef (refId : String)
  | notInUnit (path : String) (v : ℚ)
  | notInSignedUnit (path : String) (v : ℚ)
deriving DecidableEq

/-- One constructor per `add_warning` call site of the tonal pass. -/
inductive Warn where
  | noToneSystem (segId lang : String)
  | noToneLexical (tokId : String)
deriving DecidableEq

/-- The single `add_info` call site (`_detect_profile`). -/
inductive Info where
  | declaredProfile (p : String)
deriving DecidableEq

/-- The three compliance tiers of `_detect_profile`. -/
inductive Profile where
  | core
  | expressive
  | tonal
deriving DecidableEq

/-- The exact strings `_detect_profile` stores in `result.profile`. -/
def profileText : Profile → String
  | .tonal => "PG-Tonal (includes PG-Expressive, PG-Core)"
  | .expressive => "PG-Expressive (includes PG-Core)"
  | .core => "PG-Core"

/-- `doc.get('segments', [])`. -/
def segmentsOf (doc : Doc) : List Segment := doc.segments.getD []

/-- Python `v.startswith(p)`, on the character data. -/
def strStartsWith (v p : String) : Bool := p.data.isPrefixOf v.data

/-! ## Required-fields pass (`_validate_required_fields`) -/

/-- The `prosograph` block: missing key, else version must start with `"1."`. -/
def versionFieldErrors (doc : Doc) : List Err :=
  match doc.prosograph with
  | none => [.missingProsograph]
  | some v => if strStartsWith v "1." then [] else [.unsupportedVersion v]

/-- The `audio` block: missing key skips the sub-checks; otherwise `uri`
must be present and `duration_s` present and positive. -/
def audioFieldErrors (doc : Doc) : List Err :=
  match doc.audio with
  | none => [.missingAudio]
  | some audio =>
      (if audio.uri.isNone then [Err.missingAudioUri] else []) ++
      (match audio.duration_s with
       | none => [Err.missingAudioDuration]
       | some d => if d ≤ 0 then [Err.audioDurationNotPositive] else [])

/-- `_validate_required_fields`. -/
def requiredFieldsErrors (doc : Doc) : List Err :=
  versionFieldErrors doc ++ audioFieldErrors doc ++
    (if doc.segments.isNone then [Err.missingSegments] else [])

/-! ## Temporal pass (`_validate_temporal_constraints`) -/

/-- `doc.get('audio', {}).get('duration_s', float('inf'))`: the infinite
default is embedded as `none`, with the `t1 > duration` comparison never
firing in that case (no rational exceeds infinity). -/
def durationOf (doc : Doc) : Option ℚ := doc.audio.bind Audio.duration_s

/-- Token timing checks inside a segment whose `t0`/`t1` resolved to
`segT0`/`segT1`: a missing endpoint short-circuits that token only. -/
def tokTemporalErrors (segT0 segT1 : ℚ) (tok : Token) : List Err :=
  let tokId := tok.id.getD "<unknown>"
  match tok.t0, tok.t1 with
  | some u0, some u1 =>
      (if u0 < segT0 then [Err.tokT0BeforeSegT0 tokId u0 segT0] else []) ++
      (if u1 > segT1 then [Err.tokT1AfterSegT1 tokId u1 segT1] else []) ++
      (if u1 ≤ u0 then [Err.tokT1NotAfterT0 tokId u1 u0] else [])
  | _, _ => [Err.tokMissingT tokId]

/-- Per-segment timing checks: a missing `t0` (then `t1`) short-circuits
that segment, including its tokens. -/
def segTemporalErrors (dur : Option ℚ) (seg : Segment) : List Err :=
  let segId := seg.id.getD "<unknown>"
  match seg.t0 with
  | none => [Err.segMissingT0 segId]
  | some t0 =>
    match seg.t1 with
    | none => [Err.segMissingT1 segId]
    | some t1 =>
        (if t0 < 0 then [Err.segT0Negative segId t0] else []) ++
        (if t1 ≤ t0 then [Err.segT1NotAfterT0 segId t1 t0] else []) ++
        (match dur with
         | none => []
         | some d => if t1 > d then [Err.segT1ExceedsDuration segId t1 d] else []) ++
        seg.tokens.flatMap (tokTemporalErrors t0 t1)

/-- `_validate_temporal_constraints`. -/
def temporalErrors (doc : Doc) : List Err :=
  (segmentsOf doc).flatMap (segTemporalErrors (durationOf doc))

/-! ## ID-uniqueness pass (`_validate_id_uniqueness`)

The Python loop keeps two seen-ID sets (segment and token namespaces) and
appends an error per missing or already-seen ID.  `if seg_id:` is Python
truthiness, so a present-but-empty ID takes the missing-ID branch and is
never recorded.  The sets are embedded as lists consulted by `contains`. -/

/-- The token loop of `_validate_id_uniqueness`: returns the errors it
appends and the final token-ID set. -/
def tokIdStep (seen : List String) : List Token → List Err × List String
  | [] => ([], seen)
  | tok :: rest =>
    match tok.id with
    | some tid =>
        if tid ≠ "" then
          let next := tokIdStep (tid :: seen) rest
          ((if seen.contains tid then [Err.duplicateTokenId tid] else []) ++ next.1, next.2)
        else
          let next := tokIdStep seen rest
          (Err.tokenMissingId :: next.1, next.2)
    | none =>
        let next := tokIdStep seen rest
        (Err.tokenMissingId :: next.1, next.2)

/-- The segment loop of `_validate_id_uniqueness`, carrying both seen-ID
sets; each segment contributes its own ID check then its tokens'. -/
def idUniqAux (segSeen tokSeen : List String) : List Segment → List Err
  | [] => []
  | seg :: rest =>
    match seg.id with
    | some sid =>
        if sid ≠ "" then
          let tokNext := tokIdStep tokSeen seg.tokens
          (if segSeen.contains sid then [Err.duplicateSegmentId sid] else []) ++
            tokNext.1 ++ idUniqAux (sid :: segSeen) tokNext.2 rest
        else
          let tokNext := tokIdStep tokSeen seg.tokens
          Err.segmentMissingId :: (tokNext.1 ++ idUniqAux segSeen tokNext.2 rest)
    | none =>
        let tokNext := tokIdStep tokSeen seg.tokens
        Err.segmentMissingId :: (tokNext.1 ++ idUniqAux segSeen tokNext.2 rest)

/-- `_validate_id_uniqueness`. -/
def idUniquenessErrors (doc : Doc) : List Err :=
  idUniqAux [] [] (segmentsOf doc)

/-! ## Reference-resolution pass (`_validate_references`) -/

/-- The document-wide token-ID set: `if 'id' in tok` is a presence test
(no truthiness here), so every present ID is collected. -/
def docTokenIds (doc : Doc) : List String :=
  (segmentsOf doc).flatMap (fun seg => seg.tokens.filterMap Token.id)

/-- `seg.get('tracks', {}).get('delivery', {}).get('emphasis', [])`. -/
def segEmphases (seg : Segment) : List Emphasis :=
  (seg.tracks.delivery.map Delivery.emphasis).getD []

/-- The IDs referenced by one emphasis entry: present only when its `span`
is a dict containing `token_ids`. -/
def spanRefIds (emph : Emphasis) : List String :=
  match emph.span with
  | some (.obj (some ids)) => ids
  | _ => []

/-- `_validate_references`. -/
def referenceErrors (doc : Doc) : List Err :=
  let tokenIds := docTokenIds doc
  (segmentsOf doc).flatMap (fun seg =>
    (segEmphases seg).flatMap (fun emph =>
      (spanRefIds emph).flatMap (fun r =>
        if tokenIds.contains r then [] else [Err.danglingTokenRef r])))

/-! ## Numeric-range pass (`_validate_ranges`) -/

/-- `check_unit`: a present value outside `[0, 1]` is an error. -/
def check_unit (value : Option ℚ) (path : String) : List Err :=
  match value with
  | none => []
  | some v => if v < 0 ∨ v > 1 then [Err.notInUnit path v] else []

/-- `check_signed_unit`: a present value outside `[-1, 1]` is an error. -/
def check_signed_unit (value : Option ℚ) (path : String) : List Err :=
  match value with
  | none => []
  | some v => if v < -1 ∨ v > 1 then [Err.notInSignedUnit path v] else []

/-- All-absent `vad`, the default of `emotion.get('vad', {})`. -/
def Vad.empty : Vad := {}

/-- `check_emotion`. -/
def check_emotion (emotion : Emotion) (path : String) : List Err :=
  let vad := emotion.vad.getD Vad.empty
  check_signed_unit vad.valence (path ++ ".vad.valence") ++
  check_unit vad.arousal (path ++ ".vad.arousal") ++
  check_unit vad.dominance (path ++ ".vad.dominance") ++
  check_unit emotion.confidence (path ++ ".confidence")

/-- `check_voice_quality` (the fixed key order of the source). -/
def check_voice_quality (vq : VoiceQuality) (path : String) : List Err :=
  check_unit vq.creak (path ++ ".creak") ++
  check_unit vq.breathiness (path ++ ".breathiness") ++
  check_unit vq.nasal (path ++ ".nasal") ++
  check_unit vq.tension (path ++ ".tension") ++
  check_unit vq.smile (path ++ ".smile")

/-- Range checks of one token (identified by ID, else `token[j]`). -/
def tokRangeErrors (j : Nat) (tok : Token) : List Err :=
  let tokId := tok.id.getD ("token[" ++ Nat.repr j ++ "]")
  (match tok.tracks.emotion with
   | some e => check_emotion e (tokId ++ ".tracks.emotion")
   | none => []) ++
  (match tok.tracks.voice_quality with
   | some vq => check_voice_quality vq (tokId ++ ".tracks.voice_quality")
   | none => []) ++
  (match tok.tracks.tone with
   | some tone => check_unit tone.confidence (tokId ++ ".tracks.tone.confidence")
   | none => [])

/-- Range checks of one segment (identified by ID, else `segment[i]`). -/
def segRangeErrors (i : Nat) (seg : Segment) : List Err :=
  let segId := seg.id.getD ("segment[" ++ Nat.repr i ++ "]")
  (match seg.tracks.emotion with
   | some e => check_emotion e (segId ++ ".tracks.emotion")
   | none => []) ++
  (match seg.tracks.voice_quality with
   | some vq => check_voice_quality vq (segId ++ ".tracks.voice_quality")
   | none => []) ++
  (match seg.tracks.delivery with
   | some d => check_unit d.clarity (segId ++ ".tracks.delivery.clarity")
   | none => []) ++
  (seg.tokens.enum.flatMap (fun p => tokRangeErrors p.1 p.2))

/-- The document-defaults block of `_validate_ranges`. -/
def defaultsRangeErrors (doc : Doc) : List Err :=
  let defaultsStyle := (doc.defaults.bind Defaults.style).getD {}
  (match defaultsStyle.emotion with
   | some e => check_emotion e "defaults.style.emotion"
   | none => []) ++
  (match defaultsStyle.voice_quality with
   | some vq => check_voice_quality vq "defaults.style.voice_quality"
   | none => [])

/-- `_validate_ranges`. -/
def rangesErrors (doc : Doc) : List Err :=
  defaultsRangeErrors doc ++
    ((segmentsOf doc).enum.flatMap (fun p => segRangeErrors p.1 p.2))

/-! ## Tonal-language pass (`_validate_tonal_requirements`) -/

/-- The fixed tonal-language primary tags. -/
def tonalLangs : List String := ["th", "zh", "vi", "yue", "cmn"]

/-- `lang.split('-')[0].lower() if lang else ''`: the primary subtag,
lowercased (ASCII case folding, as `Char.toLower`). -/
def primarySubtag (lang : String) : String :=
  if lang = "" then ""
  else String.mk ((lang.data.takeWhile (fun c => c ≠ '-')).map Char.toLower)

/-- `doc.get('defaults', {}).get('language', '')`. -/
def defaultLangOf (doc : Doc) : String :=
  (doc.defaults.bind Defaults.language).getD ""

/-- All-absent tone track, the default of `.get('tone', {})`. -/
def Tone.empty : Tone := {}

/-- Token check of the tonal pass: tokens of kind `word`/`morpheme`/`char`
(kind defaults to `word`) without `tone.lexical` draw a warning. -/
def tokTonalWarnings (tok : Token) : List Warn :=
  let tokId := tok.id.getD "<unknown>"
  let kind := tok.kind.getD "word"
  if kind = "word" ∨ kind = "morpheme" ∨ kind = "char" then
    if (tok.tracks.tone.getD Tone.empty).lexical.isNone then
      [Warn.noToneLexical tokId]
    else []
  else []

/-- Per-segment check of the tonal pass, given the resolved default
language: only segments whose effective language is tonal are inspected. -/
def segTonalWarnings (defaultLang : String) (seg : Segment) : List Warn :=
  let segId := seg.id.getD "<unknown>"
  let lang := seg.language.getD defaultLang
  if tonalLangs.contains (primarySubtag lang) then
    (if (seg.tracks.tone.getD Tone.empty).system.isNone then
      [Warn.noToneSystem segId lang]
     else []) ++
    seg.tokens.flatMap tokTonalWarnings
  else []

/-- `_validate_tonal_requirements`. -/
def tonalWarnings (doc : Doc) : List Warn :=
  (segmentsOf doc).flatMap (segTonalWarnings (defaultLangOf doc))

/-! ## Profile detector (`_detect_profile`) -/

/-- A segment counts as expressive when its `tracks` holds any of
`emotion`, `prosody`, `delivery`, `voice_quality`. -/
def expressiveSeg (seg : Segment) : Bool :=
  seg.tracks.emotion.isSome || seg.tracks.prosody.isSome ||
    seg.tracks.delivery.isSome || seg.tracks.voice_quality.isSome

/-- A segment counts as tonal when its effective language is tonal and its
`tracks.tone` carries `system`. -/
def tonalSeg (defaultLang : String) (seg : Segment) : Bool :=
  tonalLangs.contains (primarySubtag (seg.language.getD defaultLang)) &&
    (match seg.tracks.tone with
     | some tone => tone.system.isSome
     | none => false)

/-- The flag-accumulating segment loop of `_detect_profile`:
`(has_expressive, has_tonal)`. -/
def detectFlags (doc : Doc) : Bool × Bool :=
  (segmentsOf doc).foldl
    (fun fl seg => (fl.1 || expressiveSeg seg, fl.2 || tonalSeg (defaultLangOf doc) seg))
    (false, false)

/-- The classification at the end of `_detect_profile`. -/
def detectProfile (doc : Doc) : Profile :=
  let fl := detectFlags doc
  if fl.2 && fl.1 then .tonal
  else if fl.1 then .expressive
  else .core

/-- The `add_info` tail of `_detect_profile`: `if declared:` is Python
truthiness, so an empty declared profile is not recorded. -/
def profileInfo (doc : Doc) : List Info :=
  match doc.meta.bind MetaInfo.profile with
  | some p => if p ≠ "" then [Info.declaredProfile p] else []
  | none => []

/-! ## Result accumulator and orchestrator -/

/-- `ValidationResult`: three append-only lists plus the profile slot. -/
structure ValidationResult where
  errors : List Err := []
  warnings : List Warn := []
  info : List Info := []
  profile : Option String := none

/-- `add_error`. -/
def ValidationResult.add_error (r : ValidationResult) (e : Err) : ValidationResult :=
  { r with errors := r.errors ++ [e] }

/-- `add_warning`. -/
def ValidationResult.add_warning (r : ValidationResult) (w : Warn) : ValidationResult :=
  { r with warnings := r.warnings ++ [w] }

/-- `add_info`. -/
def ValidationResult.add_info (r : ValidationResult) (i : Info) : ValidationResult :=
  { r with info := r.info ++ [i] }

/-- `is_valid`: `len(self.errors) == 0`. -/
def ValidationResult.is_valid (r : ValidationResult) : Bool :=
  r.errors.length == 0

/-- The semantic error passes in the order `validate` runs them (the
schema layer is the external collaborator and contributes nothing here). -/
def validateErrors (doc : Doc) : List Err :=
  requiredFieldsErrors doc ++ temporalErrors doc ++ idUniquenessErrors doc ++
    referenceErrors doc ++ rangesErrors doc

/-- `ProsographValidator.validate` (without the external schema layer). -/
def validate (doc : Doc) : ValidationResult :=
  { errors := validateErrors doc
    warnings := tonalWarnings doc
    info := profileInfo doc
    profile := some (profileText (detectProfile doc)) }

/-! ## Claim C1: version gate of the required-fields pass -/

/-- The spec's notion of the major segment of a version string: the part
before the first dot.  (Refinement-side definition, following the spec's
words; the source itself tests `startswith('1.')`.) -/
def majorSegment (v : String) : String :=
  String.mk (v.data.takeWhile (fun c => c ≠ '.'))

/-- The findings a version problem can produce in the required-fields pass. -/
def isVersionError : Err → Bool
  | .missingProsograph => true
  | .unsupportedVersion _ => true
  | _ => false

/-- A document whose version string is exactly `"1"`. -/
def docC1 : Doc := { prosograph := some "1" }

/-- C1: counterexample.  The version string `"1"` has major segment `"1"`,
yet the required-fields pass reports a version error quoting it — so a
version whose major segment is `"1"` can still draw a version error. -/
theorem claim_C1_counterexample :
    docC1.prosograph = some "1" ∧ majorSegment "1" = "1" ∧
      Err.unsupportedVersion "1" ∈ requiredFieldsErrors docC1 := by
  decide

/-- Neither the audio block nor the segments block of the required-fields
pass ever reports a version finding. -/
theorem audioFieldErrors_no_version (doc : Doc) :
    ∀ e ∈ audioFieldErrors doc, isVersionError e = false := by
  intro e he
  unfold audioFieldErrors at he
  cases h : doc.audio with
  | none => rw [h] at he; simp only [List.mem_singleton] at he; subst he; rfl
  | some audio =>
      rw [h] at he
      rcases List.mem_append.1 he with h1 | h2
      · split at h1
        · simp only [List.mem_singleton] at h1; subst h1; rfl
        · simp at h1
      · split at h2
        · simp only [List.mem_singleton] at h2; subst h2; rfl
        · split at h2
          · simp only [List.mem_singleton] at h2; subst h2; rfl
          · simp at h2

/-- C1 (amended): the required-fields pass reports a version error exactly
when `prosograph` is absent or its value does not start with the literal
`"1."`; the error quotes the literal offending value, and a value starting
with `"1."` draws no version error. -/
theorem claim_C1_amended (doc : Doc) :
    ((requiredFieldsErrors doc).any isVersionError = true ↔
      doc.prosograph = none ∨
        ∃ v, doc.prosograph = some v ∧ strStartsWith v "1." = false) ∧
    (∀ v, doc.prosograph = some v → strStartsWith v "1." = false →
      Err.unsupportedVersion v ∈ requiredFieldsErrors doc) ∧
    (∀ v, doc.prosograph = some v → strStartsWith v "1." = true →
      (requiredFieldsErrors doc).any isVersionError = false) := by
  have hrest : ∀ doc : Doc,
      (audioFieldErrors doc ++
        (if doc.segments.isNone then [Err.missingSegments] else [])).any
          isVersionError = false := by
    intro d
    rw [List.any_append, Bool.or_eq_false_iff]
    constructor
    · rw [List.any_eq_false]
      intro e he
      simpa using audioFieldErrors_no_version d e he
    · split <;> rfl
  have hsplit : ∀ doc : Doc, (requiredFieldsErrors doc).any isVersionError =
      (versionFieldErrors doc).any isVersionError := by
    intro d
    unfold requiredFieldsErrors
    rw [List.append_assoc, List.any_append, hrest, Bool.or_false]
  refine ⟨?_, ?_, ?_⟩
  · rw [hsplit]
    unfold versionFieldErrors
    cases h : doc.prosograph with
    | none => simp [isVersionError]
    | some v =>
        by_cases hs : strStartsWith v "1." = true
        · simp [hs]
        · rw [Bool.not_eq_true] at hs
          simp [isVersionError, hs]
  · intro v hv hns
    unfold requiredFieldsErrors versionFieldErrors
    rw [hv]
    simp [hns]
  · intro v hv hs
    rw [hsplit]
    unfold versionFieldErrors
    rw [hv]
    simp [hs]

/-- C1 witness (amended form): version `"2.0"` draws a version error
quoting it; version `"1.0"` draws none. -/
theorem claim_C1_witness :
    Err.unsupportedVersion "2.0" ∈
      requiredFieldsErrors { prosograph := some "2.0" } ∧
    (requiredFieldsErrors { prosograph := some "1.0" }).any isVersionError =
      false := by
  constructor
  · exact (claim_C1_amended { prosograph := some "2.0" }).2.1 "2.0" rfl
      (by decide)
  · exact (claim_C1_amended { prosograph := some "1.0" }).2.2 "1.0" rfl
      (by decide)

/-! ## Claim C8: numeric-range helpers are inclusive on both ends -/

/-- `check_unit` never emits a signed-unit finding. -/
theorem check_unit_no_signed (w : Option ℚ) (q p : String) (v : ℚ) :
    Err.notInSignedUnit p v ∉ check_unit w q := by
  cases w with
  | none => simp [check_unit]
  | some u =>
    simp only [check_unit]
    split <;> simp

/-- C8: the range helpers accept exactly the closed intervals `[0,1]` and
`[-1,1]`, never fire on absent values, and report the literal value and
path when violated; the emotion checker applies the signed-unit rule to
`vad.valence`. -/
theorem claim_C8 (v : ℚ) (p : String) (e : Emotion) :
    (check_unit none p = [] ∧ check_signed_unit none p = []) ∧
    (check_unit (some v) p = [] ↔ 0 ≤ v ∧ v ≤ 1) ∧
    (check_signed_unit (some v) p = [] ↔ -1 ≤ v ∧ v ≤ 1) ∧
    (v < 0 ∨ 1 < v → check_unit (some v) p = [Err.notInUnit p v]) ∧
    (v < -1 ∨ 1 < v → check_signed_unit (some v) p = [Err.notInSignedUnit p v]) ∧
    ((e.vad.getD Vad.empty).valence = some v →
      (Err.notInSignedUnit (p ++ ".vad.valence") v ∈ check_emotion e p ↔
        (v < -1 ∨ 1 < v))) := by
  refine ⟨⟨rfl, rfl⟩, ?_, ?_, ?_, ?_, ?_⟩
  · simp only [check_unit]
    split
    · simp only [List.cons_ne_self, false_iff, not_and, not_le]
      next h =>
        intro h0
        rcases h with h | h
        · exact absurd h0 (not_le.2 h)
        · exact h
    · next h =>
        push_neg at h
        simpa using h
  · simp only [check_signed_unit]
    split
    · simp only [List.cons_ne_self, false_iff, not_and, not_le]
      next h =>
        intro h0
        rcases h with h | h
        · exact absurd h0 (not_le.2 h)
        · exact h
    · next h =>
        push_neg at h
        simpa using h
  · intro h
    simp only [check_unit]
    rw [if_pos]
    exact h
  · intro h
    simp only [check_signed_unit]
    rw [if_pos]
    exact h
  · intro hval
    have hce : check_emotion e p =
        check_signed_unit (e.vad.getD Vad.empty).valence (p ++ ".vad.valence") ++
        check_unit (e.vad.getD Vad.empty).arousal (p ++ ".vad.arousal") ++
        check_unit (e.vad.getD Vad.empty).dominance (p ++ ".vad.dominance") ++
        check_unit e.confidence (p ++ ".confidence") := rfl
    rw [hce, hval]
    simp only [List.mem_append]
    constructor
    · intro hm
      rcases hm with (hm | hm) | hm
      · rcases hm with hm | hm
        · simp only [check_signed_unit] at hm
          split at hm
          · next h => exact h
          · simp at hm
        · exact absurd hm (check_unit_no_signed _ _ _ _)
      · exact absurd hm (check_unit_no_signed _ _ _ _)
      · exact absurd hm (check_unit_no_signed _ _ _ _)
    · intro h
      left; left; left
      simp [check_signed_unit, h]

/-- C8 witness: concrete evaluations at the boundary and outside it. -/
theorem claim_C8_witness :
    check_unit (some 2) "p" = [Err.notInUnit "p" 2] ∧
    check_signed_unit (some (-2)) "p" = [Err.notInSignedUnit "p" (-2)] ∧
    (Err.notInSignedUnit ("q" ++ ".vad.valence") (-2) ∈
      check_emotion { vad := some { valence := some (-2) } } "q") := by
  refine ⟨(claim_C8 2 "p" {}).2.2.2.1 (by norm_num), ?_, ?_⟩
  · exact (claim_C8 (-2) "p" {}).2.2.2.2.1 (by norm_num)
  · exact ((claim_C8 (-2) "q" { vad := some { valence := some (-2) } }).2.2.2.2.2
      rfl).2 (by norm_num)

/-! ## Claim C9: the result accumulator -/

/-- C9: `is_valid` holds exactly when the error list is empty; adding
warnings or info (any number of them) never changes validity; and each
`add_*` operation appends exactly its entry to its own list, leaving the
other lists and the profile slot untouched. -/
theorem claim_C9 (r : ValidationResult) (e : Err) (w : Warn) (i : Info)
    (ws : List Warn) (js : List Info) :
    (r.is_valid = true ↔ r.errors = []) ∧
    ((r.add_warning w).is_valid = r.is_valid) ∧
    ((r.add_info i).is_valid = r.is_valid) ∧
    ((ws.foldl ValidationResult.add_warning r).is_valid = r.is_valid) ∧
    ((js.foldl ValidationResult.add_info r).is_valid = r.is_valid) ∧
    ((r.add_error e).errors = r.errors ++ [e] ∧
      (r.add_error e).warnings = r.warnings ∧
      (r.add_error e).info = r.info ∧
      (r.add_error e).profile = r.profile) ∧
    ((r.add_warning w).errors = r.errors ∧
      (r.add_warning w).warnings = r.warnings ++ [w] ∧
      (r.add_warning w).info = r.info ∧
      (r.add_warning w).profile = r.profile) ∧
    ((r.add_info i).errors = r.errors ∧
      (r.add_info i).warnings = r.warnings ∧
      (r.add_info i).info = r.info ++ [i] ∧
      (r.add_info i).profile = r.profile) := by
  have hvalid : ∀ s : ValidationResult, s.is_valid = true ↔ s.errors = [] := by
    intro s
    simp [ValidationResult.is_valid, List.length_eq_zero]
  have hw : ∀ (l : List Warn) (s : ValidationResult),
      (l.foldl ValidationResult.add_warning s).is_valid = s.is_valid := by
    intro l
    induction l with
    | nil => intro s; rfl
    | cons x xs ih => intro s; rw [List.foldl_cons, ih]; rfl
  have hj : ∀ (l : List Info) (s : ValidationResult),
      (l.foldl ValidationResult.add_info s).is_valid = s.is_valid := by
    intro l
    induction l with
    | nil => intro s; rfl
    | cons x xs ih => intro s; rw [List.foldl_cons, ih]; rfl
  exact ⟨hvalid r, rfl, rfl, hw ws r, hj js r,
    ⟨rfl, rfl, rfl, rfl⟩, ⟨rfl, rfl, rfl, rfl⟩, ⟨rfl, rfl, rfl, rfl⟩⟩

/-! ## Claims C3 and C5: temporal pass -/

/-- Membership in a one-element conditional list forces equality. -/
theorem mem_ite_singleton {α : Type} {c : Prop} [Decidable c] {e x : α}
    (h : e ∈ if c then [x] else []) : e = x := by
  split at h
  · simpa using h
  · simp at h

/-- Token timing checks never produce a duration-exceeded finding. -/
theorem segT1ExceedsDuration_notin_tok (a b : ℚ) (tok : Token) (s : String)
    (u d : ℚ) : Err.segT1ExceedsDuration s u d ∉ tokTemporalErrors a b tok := by
  unfold tokTemporalErrors
  cases tok.t0 <;> cases tok.t1 <;> simp_all

/-- Unfolding of the token timing checks when both endpoints are present. -/
theorem tokTemporalErrors_eq (a b : ℚ) (tok : Token) (u0 u1 : ℚ)
    (h0 : tok.t0 = some u0) (h1 : tok.t1 = some u1) :
    tokTemporalErrors a b tok =
      (if u0 < a then [Err.tokT0BeforeSegT0 (tok.id.getD "<unknown>") u0 a] else []) ++
      (if u1 > b then [Err.tokT1AfterSegT1 (tok.id.getD "<unknown>") u1 b] else []) ++
      (if u1 ≤ u0 then [Err.tokT1NotAfterT0 (tok.id.getD "<unknown>") u1 u0] else []) := by
  unfold tokTemporalErrors
  rw [h0, h1]

/-- Unfolding of the per-segment timing checks when both endpoints are
present. -/
theorem segTemporalErrors_eq (dur : Option ℚ) (seg : Segment) (a b : ℚ)
    (hs0 : seg.t0 = some a) (hs1 : seg.t1 = some b) :
    segTemporalErrors dur seg =
      (if a < 0 then [Err.segT0Negative (seg.id.getD "<unknown>") a] else []) ++
      (if b ≤ a then [Err.segT1NotAfterT0 (seg.id.getD "<unknown>") b a] else []) ++
      (match dur with
       | none => []
       | some d => if b > d then
           [Err.segT1ExceedsDuration (seg.id.getD "<unknown>") b d] else []) ++
      seg.tokens.flatMap (tokTemporalErrors a b) := by
  unfold segTemporalErrors
  rw [hs0, hs1]

/-- C3: with both segment endpoints `a ≤ · < · ≤ b` resolved and both token
endpoints present, the temporal pass reports one distinct finding per
violated clause of the nesting invariant, no finding when all three clauses
hold, and every such finding surfaces in the document-level pass. -/
theorem claim_C3 (a b : ℚ) (tok : Token) (u0 u1 : ℚ)
    (h0 : tok.t0 = some u0) (h1 : tok.t1 = some u1) :
    ((tokTemporalErrors a b tok).count
        (Err.tokT0BeforeSegT0 (tok.id.getD "<unknown>") u0 a) =
      if u0 < a then 1 else 0) ∧
    ((tokTemporalErrors a b tok).count
        (Err.tokT1AfterSegT1 (tok.id.getD "<unknown>") u1 b) =
      if u1 > b then 1 else 0) ∧
    ((tokTemporalErrors a b tok).count
        (Err.tokT1NotAfterT0 (tok.id.getD "<unknown>") u1 u0) =
      if u1 ≤ u0 then 1 else 0) ∧
    (a ≤ u0 ∧ u0 < u1 ∧ u1 ≤ b → tokTemporalErrors a b tok = []) ∧
    (∀ doc seg, seg ∈ segmentsOf doc → seg.t0 = some a → seg.t1 = some b →
      tok ∈ seg.tokens → ∀ e ∈ tokTemporalErrors a b tok, e ∈ temporalErrors doc) := by
  rw [tokTemporalErrors_eq a b tok u0 u1 h0 h1]
  refine ⟨?_, ?_, ?_, ?_, ?_⟩
  · split_ifs <;> simp [List.count_append, List.count_cons]
  · split_ifs <;> simp [List.count_append, List.count_cons]
  · split_ifs <;> simp [List.count_append, List.count_cons]
  · rintro ⟨c1, c2, c3⟩
    rw [if_neg (not_lt.2 c1), if_neg (not_lt.2 c3), if_neg (not_le.2 c2)]
    rfl
  · intro doc seg hseg hs0 hs1 htok e he
    unfold temporalErrors
    refine List.mem_flatMap.2 ⟨seg, hseg, ?_⟩
    rw [segTemporalErrors_eq (durationOf doc) seg a b hs0 hs1]
    simp only [List.mem_append, List.mem_flatMap]
    refine Or.inr ⟨tok, htok, ?_⟩
    rw [tokTemporalErrors_eq a b tok u0 u1 h0 h1]
    exact he

/-- C3 witness: segment window `[0, 5]`, token `[0, 6]` — exactly the
end-of-window finding, and it surfaces in the document pass. -/
theorem claim_C3_witness :
    (tokTemporalErrors 0 5 { id := some "w1", t0 := some 0, t1 := some 6 }).count
      (Err.tokT1AfterSegT1 "w1" 6 5) = 1 := by
  have h := (claim_C3 0 5 { id := some "w1", t0 := some 0, t1 := some 6 }
    0 6 rfl rfl).2.1
  rw [if_pos (by norm_num : (6 : ℚ) > 5)] at h
  exact h

/-- C5: with `audio.duration_s` absent the temporal pass never reports a
duration-exceeded finding for any segment or value; with duration `D`
present, a segment whose endpoints are present and whose `t1 = b` exceeds
`D` draws exactly one such finding, citing the segment's ID and the literal
values of `b` and `D`, and it surfaces in the document-level pass. -/
theorem claim_C5 (doc : Doc) :
    (durationOf doc = none →
      ∀ s u d, Err.segT1ExceedsDuration s u d ∉ temporalErrors doc) ∧
    (∀ D, durationOf doc = some D →
      ∀ seg ∈ segmentsOf doc, ∀ a b, seg.t0 = some a → seg.t1 = some b → b > D →
        ((segTemporalErrors (some D) seg).count
            (Err.segT1ExceedsDuration (seg.id.getD "<unknown>") b D) = 1 ∧
          Err.segT1ExceedsDuration (seg.id.getD "<unknown>") b D ∈
            temporalErrors doc)) := by
  constructor
  · intro hd s u d hmem
    unfold temporalErrors at hmem
    rw [hd] at hmem
    rcases List.mem_flatMap.1 hmem with ⟨seg, hseg, he⟩
    revert he
    unfold segTemporalErrors
    cases seg.t0 with
    | none => simp
    | some a =>
        cases seg.t1 with
        | none => simp
        | some b =>
            intro he
            rcases List.mem_append.1 he with h12 | h4
            · rcases List.mem_append.1 h12 with h1 | h3
              · rcases List.mem_append.1 h1 with ha | hb
                · exact absurd (mem_ite_singleton ha) (by simp)
                · exact absurd (mem_ite_singleton hb) (by simp)
              · simp at h3
            · rcases List.mem_flatMap.1 h4 with ⟨tok, _, hm⟩
              exact segT1ExceedsDuration_notin_tok a b tok s u d hm
  · intro D hD seg hseg a b hs0 hs1 hbD
    have hseq : segTemporalErrors (some D) seg =
        (if a < 0 then [Err.segT0Negative (seg.id.getD "<unknown>") a] else []) ++
        (if b ≤ a then [Err.segT1NotAfterT0 (seg.id.getD "<unknown>") b a] else []) ++
        (if b > D then
          [Err.segT1ExceedsDuration (seg.id.getD "<unknown>") b D] else []) ++
        seg.tokens.flatMap (tokTemporalErrors a b) := by
      rw [segTemporalErrors_eq (some D) seg a b hs0 hs1]
    have hmem : Err.segT1ExceedsDuration (seg.id.getD "<unknown>") b D ∈
        segTemporalErrors (some D) seg := by
      rw [hseq]
      simp only [List.mem_append]
      refine Or.inl (Or.inr ?_)
      simp [hbD]
    constructor
    · rw [hseq]
      have h4 : (seg.tokens.flatMap (tokTemporalErrors a b)).count
          (Err.segT1ExceedsDuration (seg.id.getD "<unknown>") b D) = 0 := by
        rw [List.count_eq_zero]
        intro hm
        rcases List.mem_flatMap.1 hm with ⟨tok, _, hm'⟩
        exact segT1ExceedsDuration_notin_tok a b tok _ b D hm'
      rw [List.count_append, List.count_append, List.count_append, h4]
      rw [if_pos hbD]
      split_ifs <;> simp [List.count_cons]
    · unfold temporalErrors
      rw [hD]
      exact List.mem_flatMap.2 ⟨seg, hseg, hmem⟩

/-- A document with duration 5 whose single segment runs to 6. -/
def docC5 : Doc :=
  { prosograph := some "1.0"
    audio := some { uri := some "a.wav", duration_s := some 5 }
    segments := some [{ id := some "s1", t0 := some 0, t1 := some 6 }] }

/-- C5 witness: the segment overrunning the declared duration draws exactly
one duration finding, present in the document pass. -/
theorem claim_C5_witness :
    (segTemporalErrors (some 5) { id := some "s1", t0 := some 0, t1 := some 6 }).count
      (Err.segT1ExceedsDuration "s1" 6 5) = 1 ∧
    Err.segT1ExceedsDuration "s1" 6 5 ∈ temporalErrors docC5 := by
  exact (claim_C5 docC5).2 5 rfl
    { id := some "s1", t0 := some 0, t1 := some 6 }
    (List.mem_cons_self _ _) 0 6 rfl rfl (by norm_num)

/-! ## Claim C2: profile detector -/

/-- The flag fold of `_detect_profile` is the pair of `any`-scans. -/
theorem detectFlags_foldl (dl : String) (segs : List Segment) (p q : Bool) :
    segs.foldl
      (fun fl seg => (fl.1 || expressiveSeg seg, fl.2 || tonalSeg dl seg)) (p, q) =
      (p || segs.any expressiveSeg, q || segs.any (tonalSeg dl)) := by
  induction segs generalizing p q with
  | nil => simp
  | cons s rest ih => simp [List.foldl_cons, List.any_cons, ih, Bool.or_assoc]

/-- `detectFlags` in closed form. -/
theorem detectFlags_eq (doc : Doc) :
    detectFlags doc = ((segmentsOf doc).any expressiveSeg,
      (segmentsOf doc).any (tonalSeg (defaultLangOf doc))) := by
  unfold detectFlags
  rw [detectFlags_foldl]
  simp

/-- C2: a document holding both a tonal segment (tonal effective language
with `tone.system` present) and an expressive segment is classified
PG-Tonal; with no tonal segment but an expressive one, PG-Expressive; with
neither, PG-Core; and the declared `meta.profile` never influences the
detected tier. -/
theorem claim_C2 (doc : Doc) :
    ((∃ s ∈ segmentsOf doc, tonalSeg (defaultLangOf doc) s = true) ∧
     (∃ s ∈ segmentsOf doc, expressiveSeg s = true) →
       detectProfile doc = .tonal) ∧
    ((∀ s ∈ segmentsOf doc, tonalSeg (defaultLangOf doc) s = false) ∧
     (∃ s ∈ segmentsOf doc, expressiveSeg s = true) →
       detectProfile doc = .expressive) ∧
    ((∀ s ∈ segmentsOf doc, tonalSeg (defaultLangOf doc) s = false) ∧
     (∀ s ∈ segmentsOf doc, expressiveSeg s = false) →
       detectProfile doc = .core) ∧
    (∀ m, detectProfile { doc with meta := m } = detectProfile doc) := by
  refine ⟨?_, ?_, ?_, fun m => rfl⟩
  · rintro ⟨ht, he⟩
    unfold detectProfile
    rw [detectFlags_eq]
    rw [show (segmentsOf doc).any (tonalSeg (defaultLangOf doc)) = true from
      List.any_eq_true.2 ht]
    rw [show (segmentsOf doc).any expressiveSeg = true from List.any_eq_true.2 he]
    rfl
  · rintro ⟨ht, he⟩
    unfold detectProfile
    rw [detectFlags_eq]
    rw [show (segmentsOf doc).any (tonalSeg (defaultLangOf doc)) = false from
      List.any_eq_false.2 (by intro s hs; simp [ht s hs])]
    rw [show (segmentsOf doc).any expressiveSeg = true from List.any_eq_true.2 he]
    rfl
  · rintro ⟨ht, he⟩
    unfold detectProfile
    rw [detectFlags_eq]
    rw [show (segmentsOf doc).any (tonalSeg (defaultLangOf doc)) = false from
      List.any_eq_false.2 (by intro s hs; simp [ht s hs])]
    rw [show (segmentsOf doc).any expressiveSeg = false from
      List.any_eq_false.2 (by intro s hs; simp [he s hs])]
    rfl

/-- Tonal (`zh` + `tone.system`) and expressive (emotion track) segments. -/
def docC2both : Doc :=
  { segments := some [
      { id := some "s1", language := some "zh",
        tracks := { tone := some { system := some "chao" } } },
      { id := some "s2", tracks := { emotion := some {} } }] }

/-- Only the expressive segment of `docC2both`. -/
def docC2exp : Doc :=
  { segments := some [{ id := some "s2", tracks := { emotion := some {} } }] }

/-- Neither kind of segment. -/
def docC2core : Doc := { segments := some [{ id := some "s3" }] }

/-- C2 witness: the three tiers on concrete documents, and declaring a
profile in `meta` leaves the detected tier unchanged. -/
theorem claim_C2_witness :
    detectProfile docC2both = .tonal ∧
    detectProfile docC2exp = .expressive ∧
    detectProfile docC2core = .core ∧
    detectProfile { docC2both with meta := some { profile := some "PG-Core" } } =
      detectProfile docC2both := by
  refine ⟨(claim_C2 docC2both).1 ⟨?_, ?_⟩,
    (claim_C2 docC2exp).2.1 ⟨?_, ?_⟩,
    (claim_C2 docC2core).2.2.1 ⟨?_, ?_⟩,
    (claim_C2 docC2both).2.2.2 (some { profile := some "PG-Core" })⟩ <;> decide

/-! ## Claim C6: reference resolution -/

/-- Every ID referenced from an emphasis span anywhere in the document, in
traversal order and with multiplicity. -/
def allRefIds (doc : Doc) : List String :=
  (segmentsOf doc).flatMap (fun seg => (segEmphases seg).flatMap spanRefIds)

/-- The reference pass is the dangling-filter applied to `allRefIds`. -/
theorem referenceErrors_eq (doc : Doc) :
    referenceErrors doc = (allRefIds doc).flatMap
      (fun q => if (docTokenIds doc).contains q then []
                else [Err.danglingTokenRef q]) := by
  unfold referenceErrors allRefIds
  simp only [List.flatMap_assoc]

/-- Counting dangling findings over a reference list. -/
theorem count_dangling_flatMap (tokenIds : List String) (r : String)
    (L : List String) :
    (L.flatMap (fun q => if tokenIds.contains q then []
        else [Err.danglingTokenRef q])).count (Err.danglingTokenRef r) =
      if tokenIds.contains r then 0 else L.count r := by
  induction L with
  | nil => split_ifs <;> rfl
  | cons q L ih =>
      rw [List.flatMap_cons, List.count_append, ih]
      by_cases hq : tokenIds.contains q = true
      · rw [if_pos hq]
        by_cases hr : tokenIds.contains r = true
        · rw [if_pos hr, if_pos hr]
          simp
        · have hne : (q == r) = false := by
            rw [beq_eq_false_iff_ne]
            intro h
            rw [h] at hq
            exact hr hq
          rw [if_neg hr, if_neg hr, List.count_cons, hne]
          simp
      · rw [if_neg hq, List.count_singleton]
        by_cases hr : tokenIds.contains r = true
        · have hne : (Err.danglingTokenRef q == Err.danglingTokenRef r) = false := by
            rw [beq_eq_false_iff_ne]
            intro h
            rw [Err.danglingTokenRef.injEq] at h
            rw [h] at hq
            exact hq hr
          rw [if_pos hr, if_pos hr, hne]
          simp
        · have hbe : (Err.danglingTokenRef q == Err.danglingTokenRef r) = (q == r) := by
            by_cases h : q = r <;> simp [h]
          rw [if_neg hr, if_neg hr, List.count_cons, hbe]
          exact Nat.add_comm _ _

/-- C6: each entry of each `span.token_ids` list whose ID is not a token ID
of the document draws exactly one dangling-reference error naming it (one
per occurrence); every finding of the pass is such a dangling reference;
spans that are not objects or lack `token_ids` contribute no referenced IDs;
and the tonal (warnings) pass is blind to the delivery track, so spans draw
no warnings. -/
theorem claim_C6 (doc : Doc) (r : String) :
    ((referenceErrors doc).count (Err.danglingTokenRef r) =
      if (docTokenIds doc).contains r then 0 else (allRefIds doc).count r) ∧
    (∀ e ∈ referenceErrors doc,
      ∃ q, e = Err.danglingTokenRef q ∧ (docTokenIds doc).contains q = false) ∧
    (∀ emph : Emphasis, emph.span = none ∨ emph.span = some .nonObject ∨
      emph.span = some (.obj none) → spanRefIds emph = []) ∧
    (∀ (dl : String) (seg : Segment) (d : Option Delivery),
      segTonalWarnings dl { seg with tracks := { seg.tracks with delivery := d } } =
        segTonalWarnings dl seg) := by
  refine ⟨?_, ?_, ?_, fun dl seg d => rfl⟩
  · rw [referenceErrors_eq]
    exact count_dangling_flatMap _ r _
  · intro e he
    rw [referenceErrors_eq] at he
    rcases List.mem_flatMap.1 he with ⟨q, _, hq⟩
    by_cases hc : (docTokenIds doc).contains q = true
    · rw [if_pos hc] at hq
      simp at hq
    · rw [if_neg hc] at hq
      simp only [List.mem_singleton] at hq
      exact ⟨q, hq, Bool.eq_false_iff.2 hc⟩
  · rintro emph (h | h | h) <;> simp [spanRefIds, h]

/-- A document with one real token and one emphasis span referencing the
non-existent `tok-99`. -/
def docC6 : Doc :=
  { segments := some [
      { id := some "s1", t0 := some 0, t1 := some 5,
        tracks := { delivery := some { emphasis := [
          { span := some (.obj (some ["tok-99"])) },
          { span := some .nonObject },
          { span := some (.obj none) }] } },
        tokens := [{ id := some "w1", t0 := some 0, t1 := some 4 }] }] }

/-- C6 witness: the dangling `tok-99` is reported exactly once; the
malformed spans contribute nothing. -/
theorem claim_C6_witness :
    (referenceErrors docC6).count (Err.danglingTokenRef "tok-99") = 1 ∧
    spanRefIds { span := some .nonObject } = [] := by
  constructor
  · rw [(claim_C6 docC6 "tok-99").1]
    decide
  · exact (claim_C6 docC6 "tok-99").2.2.1 _ (Or.inr (Or.inl rfl))

/-! ## Claim C7: tonal-language requirements

The warnings of the tonal pass are characterized by counts, and "never an
error" is captured by erasure: removing every `tone.system` and
`tone.lexical` mark from a document leaves the error passes untouched. -/

/-- Whether a token identified by `tid` draws the missing-`tone.lexical`
warning: eligible kind (default `word`) and no lexical tone mark. -/
def tokNeedsLexical (tid : String) (tok : Token) : Bool :=
  (tok.id.getD "<unknown>" == tid) &&
  decide (tok.kind.getD "word" = "word" ∨ tok.kind.getD "word" = "morpheme" ∨
    tok.kind.getD "word" = "char") &&
  (tok.tracks.tone.getD Tone.empty).lexical.isNone

/-- Per-token warning count of the tonal pass. -/
theorem count_lex_tok (tid : String) (tok : Token) :
    (tokTonalWarnings tok).count (Warn.noToneLexical tid) =
      if tokNeedsLexical tid tok then 1 else 0 := by
  by_cases hk : (tok.kind.getD "word" = "word" ∨ tok.kind.getD "word" = "morpheme" ∨
      tok.kind.getD "word" = "char") <;>
    by_cases hl : (tok.tracks.tone.getD Tone.empty).lexical.isNone = true <;>
      by_cases hid : tok.id.getD "<unknown>" = tid <;>
        simp_all [tokTonalWarnings, tokNeedsLexical, List.count_singleton]

/-- Token-list warning count of the tonal pass. -/
theorem count_lex_flatMap (tid : String) (toks : List Token) :
    (toks.flatMap tokTonalWarnings).count (Warn.noToneLexical tid) =
      toks.countP (tokNeedsLexical tid) := by
  induction toks with
  | nil => rfl
  | cons t rest ih =>
      rw [List.flatMap_cons, List.count_append, ih, List.countP_cons,
        count_lex_tok]
      exact Nat.add_comm _ _

/-- Tokens never draw the segment-level tone-system warning. -/
theorem noToneSystem_notin_tok (a b : String) (tok : Token) :
    Warn.noToneSystem a b ∉ tokTonalWarnings tok := by
  unfold tokTonalWarnings
  split_ifs <;> simp

/-- Unfolding of the tonal pass on a tonal segment. -/
theorem segTonalWarnings_eq (dl : String) (seg : Segment)
    (h : tonalLangs.contains (primarySubtag (seg.language.getD dl)) = true) :
    segTonalWarnings dl seg =
      (if (seg.tracks.tone.getD Tone.empty).system.isNone then
        [Warn.noToneSystem (seg.id.getD "<unknown>") (seg.language.getD dl)]
       else []) ++
      seg.tokens.flatMap tokTonalWarnings := by
  simp only [segTonalWarnings]
  rw [if_pos h]

/-- Erase the `tone.system` / `tone.lexical` marks of a tone track. -/
def stripTone (t : Tone) : Tone := { t with system := none, lexical := none }

/-- Erase the tone marks of a token. -/
def stripTok (tok : Token) : Token :=
  { tok with tracks := { tok.tracks with tone := tok.tracks.tone.map stripTone } }

/-- Erase the tone marks of a segment and of all its tokens. -/
def stripSeg (seg : Segment) : Segment :=
  { seg with
    tracks := { seg.tracks with tone := seg.tracks.tone.map stripTone }
    tokens := seg.tokens.map stripTok }

/-- Erase every tone mark of a document. -/
def stripToneMarks (doc : Doc) : Doc :=
  { doc with segments := doc.segments.map (List.map stripSeg) }

/-- The required-fields pass ignores tone marks. -/
theorem required_strip (doc : Doc) :
    requiredFieldsErrors (stripToneMarks doc) = requiredFieldsErrors doc := by
  cases doc with
  | mk p a segs d m => cases segs <;> rfl

/-- Token timing ignores tone marks. -/
theorem tokTemporal_strip (a b : ℚ) (tok : Token) :
    tokTemporalErrors a b (stripTok tok) = tokTemporalErrors a b tok := rfl

/-- Segment timing ignores tone marks. -/
theorem segTemporal_strip (dur : Option ℚ) (seg : Segment) :
    segTemporalErrors dur (stripSeg seg) = segTemporalErrors dur seg := by
  cases seg with
  | mk sid t0 t1 lang tracks toks =>
      cases t0 with
      | none => rfl
      | some a =>
          cases t1 with
          | none => rfl
          | some b =>
              show segTemporalErrors dur
                  ⟨sid, some a, some b, lang,
                    { tracks with tone := tracks.tone.map stripTone },
                    toks.map stripTok⟩ = _
              rw [segTemporalErrors_eq dur _ a b rfl rfl,
                segTemporalErrors_eq dur _ a b rfl rfl]
              simp only [List.flatMap_map, tokTemporal_strip]

/-- The temporal pass ignores tone marks. -/
theorem temporal_strip (doc : Doc) :
    temporalErrors (stripToneMarks doc) = temporalErrors doc := by
  cases doc with
  | mk p a segs d m =>
      cases segs with
      | none => rfl
      | some l =>
          show (l.map stripSeg).flatMap
              (segTemporalErrors (durationOf ⟨p, a, some l, d, m⟩)) = _
          rw [List.flatMap_map]
          simp only [segTemporal_strip]
          rfl

/-- The token-ID loop ignores tone marks. -/
theorem tokIdStep_strip (toks : List Token) :
    ∀ seen, tokIdStep seen (toks.map stripTok) = tokIdStep seen toks := by
  induction toks with
  | nil => intro seen; rfl
  | cons t rest ih =>
      intro seen
      rw [List.map_cons]
      unfold tokIdStep
      rw [show (stripTok t).id = t.id from rfl]
      cases t.id <;> simp [ih]

/-- The ID-uniqueness loop ignores tone marks. -/
theorem idUniqAux_strip (segs : List Segment) :
    ∀ ss ts, idUniqAux ss ts (segs.map stripSeg) = idUniqAux ss ts segs := by
  induction segs with
  | nil => intro ss ts; rfl
  | cons seg rest ih =>
      intro ss ts
      rw [List.map_cons]
      unfold idUniqAux
      rw [show (stripSeg seg).id = seg.id from rfl,
        show (stripSeg seg).tokens = seg.tokens.map stripTok from rfl,
        tokIdStep_strip]
      cases seg.id <;> simp [ih]

/-- The ID-uniqueness pass ignores tone marks. -/
theorem idU_strip (doc : Doc) :
    idUniquenessErrors (stripToneMarks doc) = idUniquenessErrors doc := by
  cases doc with
  | mk p a segs d m =>
      cases segs with
      | none => rfl
      | some l => exact idUniqAux_strip l [] []

/-- The token-ID set ignores tone marks. -/
theorem docTokenIds_strip (doc : Doc) :
    docTokenIds (stripToneMarks doc) = docTokenIds doc := by
  cases doc with
  | mk p a segs d m =>
      cases segs with
      | none => rfl
      | some l =>
          show (l.map stripSeg).flatMap (fun seg => seg.tokens.filterMap Token.id) = _
          rw [List.flatMap_map]
          have : (fun seg => (stripSeg seg).tokens.filterMap Token.id) =
              (fun seg : Segment => seg.tokens.filterMap Token.id) := by
            funext seg
            rw [show (stripSeg seg).tokens = seg.tokens.map stripTok from rfl,
              List.filterMap_map]
            rfl
          rw [this]
          rfl

/-- The referenced-ID list ignores tone marks. -/
theorem allRefIds_strip (doc : Doc) :
    allRefIds (stripToneMarks doc) = allRefIds doc := by
  cases doc with
  | mk p a segs d m =>
      cases segs with
      | none => rfl
      | some l =>
          show (l.map stripSeg).flatMap
              (fun seg => (segEmphases seg).flatMap spanRefIds) = _
          rw [List.flatMap_map]
          rfl

/-- The reference pass ignores tone marks. -/
theorem refs_strip (doc : Doc) :
    referenceErrors (stripToneMarks doc) = referenceErrors doc := by
  rw [referenceErrors_eq, referenceErrors_eq, docTokenIds_strip, allRefIds_strip]

/-- Token range checks ignore tone marks (`tone.confidence` is kept). -/
theorem tokRange_strip (j : Nat) (tok : Token) :
    tokRangeErrors j (stripTok tok) = tokRangeErrors j tok := by
  cases tok with
  | mk tid t0 t1 kind tracks =>
      cases tracks with
      | mk em pr de vq tn => cases tn <;> rfl

/-- Segment range checks ignore tone marks. -/
theorem segRange_strip (i : Nat) (seg : Segment) :
    segRangeErrors i (stripSeg seg) = segRangeErrors i seg := by
  cases seg with
  | mk sid t0 t1 lang tracks toks =>
      cases tracks with
      | mk em pr de vq tn =>
          show segRangeErrors i
              ⟨sid, t0, t1, lang, ⟨em, pr, de, vq, tn.map stripTone⟩,
                toks.map stripTok⟩ = _
          unfold segRangeErrors
          rw [List.enum_map, List.flatMap_map]
          simp only [Prod.map_fst, Prod.map_snd, id_eq, tokRange_strip]

/-- The numeric-range pass ignores tone marks. -/
theorem ranges_strip (doc : Doc) :
    rangesErrors (stripToneMarks doc) = rangesErrors doc := by
  cases doc with
  | mk p a segs d m =>
      cases segs with
      | none => rfl
      | some l =>
          unfold rangesErrors
          congr 1
          show (l.map stripSeg).enum.flatMap (fun q => segRangeErrors q.1 q.2) = _
          rw [List.enum_map, List.flatMap_map]
          simp only [Prod.map_fst, Prod.map_snd, id_eq, segRange_strip]
          rfl

/-- Erasing every tone mark leaves the error passes untouched. -/
theorem validateErrors_strip (doc : Doc) :
    validateErrors (stripToneMarks doc) = validateErrors doc := by
  unfold validateErrors
  rw [required_strip, temporal_strip, idU_strip, refs_strip, ranges_strip]

/-- C7: a segment with non-tonal effective language draws no tonal
warnings; a tonal one draws the missing-`tone.system` warning exactly when
the mark is absent, and one missing-`tone.lexical` warning per eligible
token lacking the mark; and tone marks never influence any error pass
(present or absent, they change no error). -/
theorem claim_C7 (doc : Doc) (dl : String) (seg : Segment) (tid : String) :
    (tonalLangs.contains (primarySubtag (seg.language.getD dl)) = false →
      segTonalWarnings dl seg = []) ∧
    (tonalLangs.contains (primarySubtag (seg.language.getD dl)) = true →
      ((segTonalWarnings dl seg).count
          (Warn.noToneSystem (seg.id.getD "<unknown>") (seg.language.getD dl)) =
        if (seg.tracks.tone.getD Tone.empty).system.isNone then 1 else 0) ∧
      ((segTonalWarnings dl seg).count (Warn.noToneLexical tid) =
        seg.tokens.countP (tokNeedsLexical tid))) ∧
    validateErrors (stripToneMarks doc) = validateErrors doc := by
  refine ⟨?_, ?_, validateErrors_strip doc⟩
  · intro h
    simp only [segTonalWarnings]
    rw [if_neg (by rw [h]; simp)]
  · intro h
    rw [segTonalWarnings_eq dl seg h, List.count_append, List.count_append]
    constructor
    · have hz : (seg.tokens.flatMap tokTonalWarnings).count
          (Warn.noToneSystem (seg.id.getD "<unknown>") (seg.language.getD dl)) = 0 := by
        rw [List.count_eq_zero]
        intro hm
        rcases List.mem_flatMap.1 hm with ⟨tok, _, hm'⟩
        exact noToneSystem_notin_tok _ _ tok hm'
      rw [hz]
      split_ifs <;> simp [List.count_singleton]
    · rw [count_lex_flatMap]
      have hz : (if (seg.tracks.tone.getD Tone.empty).system.isNone then
          [Warn.noToneSystem (seg.id.getD "<unknown>") (seg.language.getD dl)]
         else []).count (Warn.noToneLexical tid) = 0 := by
        split_ifs <;> simp
      rw [hz]
      simp

/-- The zh segment of end-to-end scenario 3. -/
def segC7 : Segment :=
  { id := some "s1", t0 := some 0, t1 := some 5, language := some "zh",
    tokens := [{ id := some "w1", t0 := some 0, t1 := some 4,
                 kind := some "word" }] }

/-- The zh document of end-to-end scenario 3. -/
def docC7 : Doc :=
  { prosograph := some "1.0"
    audio := some { uri := some "a.wav", duration_s := some 10 }
    segments := some [segC7] }

/-- C7 witness: scenario 3 — one missing-`tone.system` warning, one
missing-`tone.lexical` warning, and erasure leaves the (empty) error list
unchanged. -/
theorem claim_C7_witness :
    (segTonalWarnings "" segC7).count (Warn.noToneSystem "s1" "zh") = 1 ∧
    (segTonalWarnings "" segC7).count (Warn.noToneLexical "w1") = 1 ∧
    validateErrors (stripToneMarks docC7) = validateErrors docC7 := by
  have h := claim_C7 docC7 "" segC7 "w1"
  exact ⟨(h.2.1 (by decide)).1, (h.2.1 (by decide)).2, h.2.2⟩

/-! ## Claims C4 and C10: ID uniqueness -/

/-- `List.contains` agrees with membership (lawful `BEq` on `String`). -/
theorem contains_iff_mem {l : List String} {s : String} :
    l.contains s = true ↔ s ∈ l := List.elem_iff

/-- Occurrences of the (nonempty) token ID `s` in a token list. -/
def tokOcc (s : String) (toks : List Token) : Nat :=
  toks.countP (fun t => t.id == some s)

/-- Occurrences of the (nonempty) segment ID `s` in a segment list. -/
def segOcc (s : String) (segs : List Segment) : Nat :=
  segs.countP (fun g => g.id == some s)

/-- Token loop, head with absent ID. -/
theorem tokIdStep_cons_none (seen : List String) (t : Token) (rest : List Token)
    (h : t.id = none) :
    tokIdStep seen (t :: rest) =
      (Err.tokenMissingId :: (tokIdStep seen rest).1, (tokIdStep seen rest).2) := by
  simp only [tokIdStep, h]

/-- Token loop, head with empty ID (falsy, treated as missing). -/
theorem tokIdStep_cons_empty (seen : List String) (t : Token) (rest : List Token)
    (h : t.id = some "") :
    tokIdStep seen (t :: rest) =
      (Err.tokenMissingId :: (tokIdStep seen rest).1, (tokIdStep seen rest).2) := by
  simp only [tokIdStep, h, ne_eq, not_true_eq_false, if_false, ite_false]

/-- Token loop, head with nonempty ID. -/
theorem tokIdStep_cons_some (seen : List String) (t : Token) (rest : List Token)
    (tid : String) (h : t.id = some tid) (hne : tid ≠ "") :
    tokIdStep seen (t :: rest) =
      ((if seen.contains tid then [Err.duplicateTokenId tid] else []) ++
        (tokIdStep (tid :: seen) rest).1, (tokIdStep (tid :: seen) rest).2) := by
  simp only [tokIdStep, h, ne_eq, hne, not_false_eq_true, if_true, ite_true]

/-- Segment loop, head with absent ID. -/
theorem idUniqAux_cons_miss (ss ts : List String) (seg : Segment)
    (rest : List Segment) (h : seg.id = none) :
    idUniqAux ss ts (seg :: rest) = Err.segmentMissingId ::
      ((tokIdStep ts seg.tokens).1 ++
        idUniqAux ss (tokIdStep ts seg.tokens).2 rest) := by
  simp only [idUniqAux, h]

/-- Segment loop, head with empty ID. -/
theorem idUniqAux_cons_empty (ss ts : List String) (seg : Segment)
    (rest : List Segment) (h : seg.id = some "") :
    idUniqAux ss ts (seg :: rest) = Err.segmentMissingId ::
      ((tokIdStep ts seg.tokens).1 ++
        idUniqAux ss (tokIdStep ts seg.tokens).2 rest) := by
  simp only [idUniqAux, h, ne_eq, not_true_eq_false, if_false, ite_false]

/-- Segment loop, head with nonempty ID. -/
theorem idUniqAux_cons_some (ss ts : List String) (seg : Segment)
    (rest : List Segment) (sid : String) (h : seg.id = some sid) (hne : sid ≠ "") :
    idUniqAux ss ts (seg :: rest) =
      (if ss.contains sid then [Err.duplicateSegmentId sid] else []) ++
        (tokIdStep ts seg.tokens).1 ++
        idUniqAux (sid :: ss) (tokIdStep ts seg.tokens).2 rest := by
  simp only [idUniqAux, h, ne_eq, hne, not_false_eq_true, if_true, ite_true]

/-- Duplicate-token count of the token loop: every occurrence of `s` beyond
the first is reported, the first too when `s` was already seen. -/
theorem tokIdStep_count_dup (s : String) (hs : s ≠ "") :
    ∀ (toks : List Token) (seen : List String),
      (tokIdStep seen toks).1.count (Err.duplicateTokenId s) =
        if s ∈ seen then tokOcc s toks else tokOcc s toks - 1 := by
  intro toks
  induction toks with
  | nil =>
      intro seen
      simp only [tokIdStep, tokOcc, List.countP_nil, List.count_nil]
      split_ifs <;> rfl
  | cons t rest ih =>
      intro seen
      cases ht : t.id with
      | none =>
          have hocc : tokOcc s (t :: rest) = tokOcc s rest := by
            unfold tokOcc
            rw [List.countP_cons]
            simp [ht]
          rw [tokIdStep_cons_none seen t rest ht, hocc]
          simp [List.count_cons, ih seen]
      | some tid =>
          by_cases hemp : tid = ""
          · subst hemp
            have hocc : tokOcc s (t :: rest) = tokOcc s rest := by
              unfold tokOcc
              rw [List.countP_cons]
              simp [ht, Ne.symm hs]
            rw [tokIdStep_cons_empty seen t rest ht, hocc]
            simp [List.count_cons, ih seen]
          · by_cases hts : tid = s
            · subst hts
              have hocc : tokOcc tid (t :: rest) = tokOcc tid rest + 1 := by
                unfold tokOcc
                rw [List.countP_cons]
                simp [ht]
              rw [tokIdStep_cons_some seen t rest tid ht hemp,
                List.count_append, ih (tid :: seen),
                if_pos (List.mem_cons_self tid seen), hocc]
              by_cases hm : tid ∈ seen
              · rw [if_pos (contains_iff_mem.2 hm), if_pos hm]
                simp [List.count_singleton]
                omega
              · rw [if_neg (fun hc => hm (contains_iff_mem.1 hc)), if_neg hm]
                simp
            · have hocc : tokOcc s (t :: rest) = tokOcc s rest := by
                unfold tokOcc
                rw [List.countP_cons]
                simp [ht, hts]
              have hcnt : (if seen.contains tid then
                  [Err.duplicateTokenId tid] else []).count
                    (Err.duplicateTokenId s) = 0 := by
                split_ifs <;> simp [List.count_singleton, hts]
              have hmem : (s ∈ tid :: seen) ↔ s ∈ seen := by
                constructor
                · intro h
                  rcases List.mem_cons.1 h with h | h
                  · exact absurd h.symm hts
                  · exact h
                · exact fun h => List.mem_cons_of_mem _ h
              rw [tokIdStep_cons_some seen t rest tid ht hemp,
                List.count_append, ih (tid :: seen), hcnt, hocc]
              simp only [hmem]
              simp

/-- Membership in the token-ID set after the token loop (nonempty `s`). -/
theorem tokIdStep_snd_mem (s : String) (hs : s ≠ "") :
    ∀ (toks : List Token) (seen : List String),
      s ∈ (tokIdStep seen toks).2 ↔ s ∈ seen ∨ 0 < tokOcc s toks := by
  intro toks
  induction toks with
  | nil => intro seen; simp [tokIdStep, tokOcc]
  | cons t rest ih =>
      intro seen
      cases ht : t.id with
      | none =>
          have hocc : tokOcc s (t :: rest) = tokOcc s rest := by
            unfold tokOcc; rw [List.countP_cons]; simp [ht]
          rw [tokIdStep_cons_none seen t rest ht, hocc]
          exact ih seen
      | some tid =>
          by_cases hemp : tid = ""
          · subst hemp
            have hocc : tokOcc s (t :: rest) = tokOcc s rest := by
              unfold tokOcc; rw [List.countP_cons]; simp [ht, Ne.symm hs]
            rw [tokIdStep_cons_empty seen t rest ht, hocc]
            exact ih seen
          · by_cases hts : tid = s
            · subst hts
              have hocc : tokOcc tid (t :: rest) = tokOcc tid rest + 1 := by
                unfold tokOcc; rw [List.countP_cons]; simp [ht]
              rw [tokIdStep_cons_some seen t rest tid ht hemp, hocc]
              simp [ih (tid :: seen), List.mem_cons_self]
            · have hocc : tokOcc s (t :: rest) = tokOcc s rest := by
                unfold tokOcc; rw [List.countP_cons]; simp [ht, hts]
              have hmem : (s ∈ tid :: seen) ↔ s ∈ seen := by
                constructor
                · intro h
                  rcases List.mem_cons.1 h with h | h
                  · exact absurd h.symm hts
                  · exact h
                · exact fun h => List.mem_cons_of_mem _ h
              rw [tokIdStep_cons_some seen t rest tid ht hemp, hocc]
              rw [show (((if seen.contains tid then [Err.duplicateTokenId tid]
                  else []) ++ (tokIdStep (tid :: seen) rest).1,
                  (tokIdStep (tid :: seen) rest).2) : List Err × List String).2 =
                (tokIdStep (tid :: seen) rest).2 from rfl]
              rw [ih (tid :: seen)]
              simp [hmem]

/-- The token loop never records the empty ID. -/
theorem tokIdStep_snd_empty :
    ∀ (toks : List Token) (seen : List String),
      "" ∈ (tokIdStep seen toks).2 ↔ "" ∈ seen := by
  intro toks
  induction toks with
  | nil => intro seen; simp [tokIdStep]
  | cons t rest ih =>
      intro seen
      cases ht : t.id with
      | none => rw [tokIdStep_cons_none seen t rest ht]; exact ih seen
      | some tid =>
          by_cases hemp : tid = ""
          · subst hemp
            rw [tokIdStep_cons_empty seen t rest ht]
            exact ih seen
          · rw [tokIdStep_cons_some seen t rest tid ht hemp]
            rw [show (((if seen.contains tid then [Err.duplicateTokenId tid]
                else []) ++ (tokIdStep (tid :: seen) rest).1,
                (tokIdStep (tid :: seen) rest).2) : List Err × List String).2 =
              (tokIdStep (tid :: seen) rest).2 from rfl]
            rw [ih (tid :: seen)]
            constructor
            · intro h
              rcases List.mem_cons.1 h with h | h
              · exact absurd h.symm hemp
              · exact h
            · exact fun h => List.mem_cons_of_mem _ h

/-- Shape of the findings of the token loop: only missing-ID and
duplicate-token findings, the latter always with a nonempty ID. -/
theorem tokIdStep_mem_shape :
    ∀ (toks : List Token) (seen : List String), ∀ e ∈ (tokIdStep seen toks).1,
      e = Err.tokenMissingId ∨ ∃ q, q ≠ "" ∧ e = Err.duplicateTokenId q := by
  intro toks
  induction toks with
  | nil => intro seen e he; simp [tokIdStep] at he
  | cons t rest ih =>
      intro seen e he
      cases ht : t.id with
      | none =>
          rw [tokIdStep_cons_none seen t rest ht] at he
          rcases List.mem_cons.1 he with h | h
          · exact Or.inl h
          · exact ih seen e h
      | some tid =>
          by_cases hemp : tid = ""
          · subst hemp
            rw [tokIdStep_cons_empty seen t rest ht] at he
            rcases List.mem_cons.1 he with h | h
            · exact Or.inl h
            · exact ih seen e h
          · rw [tokIdStep_cons_some seen t rest tid ht hemp] at he
            rcases List.mem_append.1 he with h | h
            · exact Or.inr ⟨tid, hemp, mem_ite_singleton h⟩
            · exact ih (tid :: seen) e h

/-- Missing-token-ID count of the token loop. -/
theorem tokIdStep_count_missing :
    ∀ (toks : List Token) (seen : List String),
      (tokIdStep seen toks).1.count Err.tokenMissingId =
        toks.countP (fun t => t.id == none || t.id == some "") := by
  intro toks
  induction toks with
  | nil => intro seen; simp [tokIdStep]
  | cons t rest ih =>
      intro seen
      rw [List.countP_cons]
      cases ht : t.id with
      | none =>
          rw [tokIdStep_cons_none seen t rest ht, List.count_cons_self, ih seen]
          simp [ht]
      | some tid =>
          by_cases hemp : tid = ""
          · subst hemp
            rw [tokIdStep_cons_empty seen t rest ht, List.count_cons_self,
              ih seen]
            simp [ht]
          · rw [tokIdStep_cons_some seen t rest tid ht hemp, List.count_append,
              ih (tid :: seen)]
            have hz : (if seen.contains tid then [Err.duplicateTokenId tid]
                else []).count Err.tokenMissingId = 0 := by
              split_ifs <;> simp
            rw [hz]
            simp [ht, hemp]

/-- Duplicate-token count of the full ID-uniqueness loop: one finding per
occurrence of the nonempty token ID `s` beyond the first, across the whole
document. -/
theorem idUniqAux_count_dupTok (s : String) (hs : s ≠ "") :
    ∀ (segs : List Segment) (ss ts : List String),
      (idUniqAux ss ts segs).count (Err.duplicateTokenId s) =
        if s ∈ ts then tokOcc s (segs.flatMap Segment.tokens)
        else tokOcc s (segs.flatMap Segment.tokens) - 1 := by
  intro segs
  induction segs with
  | nil =>
      intro ss ts
      simp only [idUniqAux, List.flatMap_nil, tokOcc, List.countP_nil,
        List.count_nil]
      split_ifs <;> rfl
  | cons seg rest ih =>
      intro ss ts
      have hsplit : tokOcc s ((seg :: rest).flatMap Segment.tokens) =
          tokOcc s seg.tokens + tokOcc s (rest.flatMap Segment.tokens) := by
        unfold tokOcc
        rw [List.flatMap_cons, List.countP_append]
      have htok := tokIdStep_count_dup s hs seg.tokens ts
      have hsnd := tokIdStep_snd_mem s hs seg.tokens ts
      have hfin : ∀ ss' : List String,
          ((tokIdStep ts seg.tokens).1.count (Err.duplicateTokenId s) +
            (idUniqAux ss' (tokIdStep ts seg.tokens).2 rest).count
              (Err.duplicateTokenId s)) =
          if s ∈ ts then tokOcc s ((seg :: rest).flatMap Segment.tokens)
          else tokOcc s ((seg :: rest).flatMap Segment.tokens) - 1 := by
        intro ss'
        rw [htok, ih ss' (tokIdStep ts seg.tokens).2, hsplit]
        by_cases hts : s ∈ ts
        · rw [if_pos hts, if_pos (hsnd.2 (Or.inl hts)), if_pos hts]
        · by_cases hA : 0 < tokOcc s seg.tokens
          · rw [if_neg hts, if_pos (hsnd.2 (Or.inr hA)), if_neg hts]
            omega
          · have hA0 : tokOcc s seg.tokens = 0 := Nat.eq_zero_of_not_pos hA
            have h2 : s ∉ (tokIdStep ts seg.tokens).2 := fun h =>
              (hsnd.1 h).elim hts hA
            rw [if_neg hts, if_neg h2, if_neg hts, hA0]
            omega
      cases hid : seg.id with
      | none =>
          rw [idUniqAux_cons_miss ss ts seg rest hid,
            List.count_cons_of_ne (by simp), List.count_append]
          exact hfin ss
      | some sid =>
          by_cases hemp : sid = ""
          · subst hemp
            rw [idUniqAux_cons_empty ss ts seg rest hid,
              List.count_cons_of_ne (by simp), List.count_append]
            exact hfin ss
          · rw [idUniqAux_cons_some ss ts seg rest sid hid hemp,
              List.count_append, List.count_append]
            have hz : (if ss.contains sid then [Err.duplicateSegmentId sid]
                else []).count (Err.duplicateTokenId s) = 0 := by
              split_ifs <;> simp
            rw [hz, Nat.zero_add]
            exact hfin (sid :: ss)

/-- Duplicate-segment count of the ID-uniqueness loop: one finding per
occurrence of the nonempty segment ID `s` beyond the first. -/
theorem idUniqAux_count_dupSeg (s : String) (hs : s ≠ "") :
    ∀ (segs : List Segment) (ss ts : List String),
      (idUniqAux ss ts segs).count (Err.duplicateSegmentId s) =
        if s ∈ ss then segOcc s segs else segOcc s segs - 1 := by
  intro segs
  induction segs with
  | nil =>
      intro ss ts
      simp only [idUniqAux, segOcc, List.countP_nil, List.count_nil]
      split_ifs <;> rfl
  | cons seg rest ih =>
      intro ss ts
      have hztok : (tokIdStep ts seg.tokens).1.count
          (Err.duplicateSegmentId s) = 0 := by
        rw [List.count_eq_zero]
        intro hm
        rcases tokIdStep_mem_shape seg.tokens ts _ hm with h | ⟨q, _, h⟩ <;>
          simp at h
      cases hid : seg.id with
      | none =>
          have hocc : segOcc s (seg :: rest) = segOcc s rest := by
            unfold segOcc
            rw [List.countP_cons]
            simp [hid]
          rw [idUniqAux_cons_miss ss ts seg rest hid,
            List.count_cons_of_ne (by simp), List.count_append, hztok,
            Nat.zero_add, hocc]
          exact ih ss (tokIdStep ts seg.tokens).2
      | some sid =>
          by_cases hemp : sid = ""
          · subst hemp
            have hocc : segOcc s (seg :: rest) = segOcc s rest := by
              unfold segOcc
              rw [List.countP_cons]
              simp [hid, Ne.symm hs]
            rw [idUniqAux_cons_empty ss ts seg rest hid,
              List.count_cons_of_ne (by simp), List.count_append, hztok,
              Nat.zero_add, hocc]
            exact ih ss (tokIdStep ts seg.tokens).2
          · by_cases hts : sid = s
            · subst hts
              have hocc : segOcc sid (seg :: rest) = segOcc sid rest + 1 := by
                unfold segOcc
                rw [List.countP_cons]
                simp [hid]
              rw [idUniqAux_cons_some ss ts seg rest sid hid hemp,
                List.count_append, List.count_append, hztok, Nat.add_zero,
                ih (sid :: ss) (tokIdStep ts seg.tokens).2,
                if_pos (List.mem_cons_self sid ss), hocc]
              by_cases hm : sid ∈ ss
              · rw [if_pos (contains_iff_mem.2 hm), if_pos hm]
                simp [List.count_singleton]
                omega
              · rw [if_neg (fun hc => hm (contains_iff_mem.1 hc)), if_neg hm]
                simp
            · have hocc : segOcc s (seg :: rest) = segOcc s rest := by
                unfold segOcc
                rw [List.countP_cons]
                simp [hid, hts]
              have hz : (if ss.contains sid then [Err.duplicateSegmentId sid]
                  else []).count (Err.duplicateSegmentId s) = 0 := by
                split_ifs <;> simp [List.count_singleton, hts]
              have hmem : (s ∈ sid :: ss) ↔ s ∈ ss := by
                constructor
                · intro h
                  rcases List.mem_cons.1 h with h | h
                  · exact absurd h.symm hts
                  · exact h
                · exact fun h => List.mem_cons_of_mem _ h
              rw [idUniqAux_cons_some ss ts seg rest sid hid hemp,
                List.count_append, List.count_append, hztok, Nat.add_zero, hz,
                Nat.zero_add, ih (sid :: ss) (tokIdStep ts seg.tokens).2, hocc]
              simp only [hmem]

/-- Missing-segment-ID count of the ID-uniqueness loop: one finding per
segment whose ID is absent or empty. -/
theorem idUniqAux_count_segMissing :
    ∀ (segs : List Segment) (ss ts : List String),
      (idUniqAux ss ts segs).count Err.segmentMissingId =
        segs.countP (fun g => g.id == none || g.id == some "") := by
  intro segs
  induction segs with
  | nil => intro ss ts; simp [idUniqAux]
  | cons seg rest ih =>
      intro ss ts
      have hztok : (tokIdStep ts seg.tokens).1.count Err.segmentMissingId = 0 := by
        rw [List.count_eq_zero]
        intro hm
        rcases tokIdStep_mem_shape seg.tokens ts _ hm with h | ⟨q, _, h⟩ <;>
          simp at h
      rw [List.countP_cons]
      cases hid : seg.id with
      | none =>
          rw [idUniqAux_cons_miss ss ts seg rest hid, List.count_cons_self,
            List.count_append, hztok, Nat.zero_add,
            ih ss (tokIdStep ts seg.tokens).2]
          simp [hid]
      | some sid =>
          by_cases hemp : sid = ""
          · subst hemp
            rw [idUniqAux_cons_empty ss ts seg rest hid, List.count_cons_self,
              List.count_append, hztok, Nat.zero_add,
              ih ss (tokIdStep ts seg.tokens).2]
            simp [hid]
          · have hz : (if ss.contains sid then [Err.duplicateSegmentId sid]
                else []).count Err.segmentMissingId = 0 := by
              split_ifs <;> simp
            rw [idUniqAux_cons_some ss ts seg rest sid hid hemp,
              List.count_append, List.count_append, hz, Nat.zero_add, hztok,
              Nat.zero_add, ih (sid :: ss) (tokIdStep ts seg.tokens).2]
            simp [hid, hemp]

/-- Missing-token-ID count of the ID-uniqueness loop: one finding per token
(document-wide) whose ID is absent or empty. -/
theorem idUniqAux_count_tokMissing :
    ∀ (segs : List Segment) (ss ts : List String),
      (idUniqAux ss ts segs).count Err.tokenMissingId =
        (segs.flatMap Segment.tokens).countP
          (fun t => t.id == none || t.id == some "") := by
  intro segs
  induction segs with
  | nil => intro ss ts; simp [idUniqAux]
  | cons seg rest ih =>
      intro ss ts
      have hsplit : ((seg :: rest).flatMap Segment.tokens).countP
          (fun t => t.id == none || t.id == some "") =
          seg.tokens.countP (fun t => t.id == none || t.id == some "") +
          (rest.flatMap Segment.tokens).countP
            (fun t => t.id == none || t.id == some "") := by
        rw [List.flatMap_cons, List.countP_append]
      rw [hsplit]
      cases hid : seg.id with
      | none =>
          rw [idUniqAux_cons_miss ss ts seg rest hid,
            List.count_cons_of_ne (by simp), List.count_append,
            tokIdStep_count_missing, ih ss (tokIdStep ts seg.tokens).2]
      | some sid =>
          by_cases hemp : sid = ""
          · subst hemp
            rw [idUniqAux_cons_empty ss ts seg rest hid,
              List.count_cons_of_ne (by simp), List.count_append,
              tokIdStep_count_missing, ih ss (tokIdStep ts seg.tokens).2]
          · have hz : (if ss.contains sid then [Err.duplicateSegmentId sid]
                else []).count Err.tokenMissingId = 0 := by
              split_ifs <;> simp
            rw [idUniqAux_cons_some ss ts seg rest sid hid hemp,
              List.count_append, List.count_append, hz, Nat.zero_add,
              tokIdStep_count_missing, ih (sid :: ss) (tokIdStep ts seg.tokens).2]

/-- Shape of the findings of the ID-uniqueness loop: missing-ID findings
and duplicate findings whose IDs are always nonempty. -/
theorem idUniqAux_mem_shape :
    ∀ (segs : List Segment) (ss ts : List String), ∀ e ∈ idUniqAux ss ts segs,
      e = Err.segmentMissingId ∨ e = Err.tokenMissingId ∨
      (∃ q, q ≠ "" ∧ e = Err.duplicateSegmentId q) ∨
      (∃ q, q ≠ "" ∧ e = Err.duplicateTokenId q) := by
  intro segs
  induction segs with
  | nil => intro ss ts e he; simp [idUniqAux] at he
  | cons seg rest ih =>
      intro ss ts e he
      have htok : ∀ e' ∈ (tokIdStep ts seg.tokens).1,
          e' = Err.segmentMissingId ∨ e' = Err.tokenMissingId ∨
          (∃ q, q ≠ "" ∧ e' = Err.duplicateSegmentId q) ∨
          (∃ q, q ≠ "" ∧ e' = Err.duplicateTokenId q) := by
        intro e' he'
        rcases tokIdStep_mem_shape seg.tokens ts e' he' with h | ⟨q, hq, h⟩
        · exact Or.inr (Or.inl h)
        · exact Or.inr (Or.inr (Or.inr ⟨q, hq, h⟩))
      cases hid : seg.id with
      | none =>
          rw [idUniqAux_cons_miss ss ts seg rest hid] at he
          rcases List.mem_cons.1 he with h | h
          · exact Or.inl h
          · rcases List.mem_append.1 h with h | h
            · exact htok e h
            · exact ih ss (tokIdStep ts seg.tokens).2 e h
      | some sid =>
          by_cases hemp : sid = ""
          · subst hemp
            rw [idUniqAux_cons_empty ss ts seg rest hid] at he
            rcases List.mem_cons.1 he with h | h
            · exact Or.inl h
            · rcases List.mem_append.1 h with h | h
              · exact htok e h
              · exact ih ss (tokIdStep ts seg.tokens).2 e h
          · rw [idUniqAux_cons_some ss ts seg rest sid hid hemp] at he
            rcases List.mem_append.1 he with h | h
            · rcases List.mem_append.1 h with h | h
              · exact Or.inr (Or.inr (Or.inl ⟨sid, hemp, mem_ite_singleton h⟩))
              · exact htok e h
            · exact ih (sid :: ss) (tokIdStep ts seg.tokens).2 e h

/-- C4: the ID-uniqueness pass keeps two separate document-wide namespaces:
for every nonempty ID `s`, the duplicate-segment findings number exactly
the segment occurrences of `s` beyond the first, and the duplicate-token
findings exactly the token occurrences of `s` beyond the first across all
segments; neither count ever depends on the other namespace. -/
theorem claim_C4 (doc : Doc) (s : String) (hs : s ≠ "") :
    (idUniquenessErrors doc).count (Err.duplicateSegmentId s) =
      segOcc s (segmentsOf doc) - 1 ∧
    (idUniquenessErrors doc).count (Err.duplicateTokenId s) =
      tokOcc s ((segmentsOf doc).flatMap Segment.tokens) - 1 := by
  unfold idUniquenessErrors
  constructor
  · rw [idUniqAux_count_dupSeg s hs (segmentsOf doc) [] []]
    simp
  · rw [idUniqAux_count_dupTok s hs (segmentsOf doc) [] []]
    simp

/-- Two segments sharing `s1`, two tokens sharing `w1` in different
segments, and one token whose ID `s1` collides only across namespaces. -/
def docC4 : Doc :=
  { segments := some [
      { id := some "s1", tokens := [{ id := some "w1" }, { id := some "s1" }] },
      { id := some "s1", tokens := [{ id := some "w1" }] }] }

/-- C4 witness: one duplicate-segment finding for `s1`, one duplicate-token
finding for `w1` (across segments), and no duplicate-token finding for the
token that shares its ID with a segment. -/
theorem claim_C4_witness :
    (idUniquenessErrors docC4).count (Err.duplicateSegmentId "s1") = 1 ∧
    (idUniquenessErrors docC4).count (Err.duplicateTokenId "w1") = 1 ∧
    (idUniquenessErrors docC4).count (Err.duplicateTokenId "s1") = 0 := by
  refine ⟨?_, ?_, ?_⟩
  · rw [(claim_C4 docC4 "s1" (by decide)).1]
    decide
  · rw [(claim_C4 docC4 "w1" (by decide)).2]
    decide
  · rw [(claim_C4 docC4 "s1" (by decide)).2]
    decide

/-- C10: an entity whose ID is present but empty is reported as missing
its ID and is never recorded: the duplicate findings never name the empty
ID, the missing-ID counts cover both absent and empty IDs, and the token
seen-ID set never acquires the empty string. -/
theorem claim_C10 (doc : Doc) :
    Err.duplicateSegmentId "" ∉ idUniquenessErrors doc ∧
    Err.duplicateTokenId "" ∉ idUniquenessErrors doc ∧
    ((idUniquenessErrors doc).count Err.segmentMissingId =
      (segmentsOf doc).countP (fun g => g.id == none || g.id == some "")) ∧
    ((idUniquenessErrors doc).count Err.tokenMissingId =
      ((segmentsOf doc).flatMap Segment.tokens).countP
        (fun t => t.id == none || t.id == some "")) ∧
    (∀ (seen : List String) (toks : List Token),
      "" ∈ (tokIdStep seen toks).2 ↔ "" ∈ seen) := by
  refine ⟨?_, ?_, idUniqAux_count_segMissing (segmentsOf doc) [] [],
    idUniqAux_count_tokMissing (segmentsOf doc) [] [],
    fun seen toks => tokIdStep_snd_empty toks seen⟩
  · intro hm
    rcases idUniqAux_mem_shape (segmentsOf doc) [] [] _ hm with
      h | h | ⟨q, hq, h⟩ | ⟨q, hq, h⟩ <;> simp_all
  · intro hm
    rcases idUniqAux_mem_shape (segmentsOf doc) [] [] _ hm with
      h | h | ⟨q, hq, h⟩ | ⟨q, hq, h⟩ <;> simp_all

/-- Two segments both carrying the empty-string ID. -/
def docC10 : Doc :=
  { segments := some [{ id := some "" }, { id := some "" }] }

/-- C10 witness: two empty-ID segments draw two missing-ID findings and no
duplicate finding. -/
theorem claim_C10_witness :
    (idUniquenessErrors docC10).count Err.segmentMissingId = 2 ∧
    Err.duplicateSegmentId "" ∉ idUniquenessErrors docC10 := by
  refine ⟨?_, (claim_C10 docC10).1⟩
  rw [(claim_C10 docC10).2.2.1]
  decide

end Prosograph
